import Mathlib

/-!
Shallow embedding of `src/impl/nft-ptr-lib/src/lib.rs` (crate `nft-ptr-lib`).

The library is client-side glue mapping in-process ownership events onto
blockchain transactions.  External collaborators (the web3 node, the
`cpp_demangle` demangler, the `backtrace` symbolication library, the
filesystem and clock) are modelled as oracles passed in explicitly; the
glue logic itself (the instance registry, the control flow of
`initialize` / `move_token` / `ptr_initialize` / `ptr_destroy`, the string
formatting of URIs and backtraces) is translated faithfully from the Rust
source.  A Rust `panic!` / `unwrap()` failure is modelled as `none` or a
dedicated abort constructor.
-/

/-- Models the character table of the Rust `{:x}` format specifier:
digit value to lowercase hexadecimal digit character. -/
def hexDigitChar (n : Nat) : Char :=
  if n = 0 then '0' else if n = 1 then '1' else if n = 2 then '2'
  else if n = 3 then '3' else if n = 4 then '4' else if n = 5 then '5'
  else if n = 6 then '6' else if n = 7 then '7' else if n = 8 then '8'
  else if n = 9 then '9' else if n = 10 then 'a' else if n = 11 then 'b'
  else if n = 12 then 'c' else if n = 13 then 'd' else if n = 14 then 'e'
  else 'f'

/-- Accumulator loop for `hexStr`; `fuel` bounds the recursion depth. -/
def toHexAux (fuel : Nat) (n : Nat) (acc : List Char) : List Char :=
  match fuel with
  | 0 => acc
  | fuel + 1 =>
    let d := hexDigitChar (n % 16)
    if n / 16 = 0 then d :: acc else toHexAux fuel (n / 16) (d :: acc)

/-- Models Rust `format!("{:x}", n)` for an unsigned integer: lowercase
hexadecimal, no prefix, no leading zeros (a lone `0` for zero). -/
def hexStr (n : Nat) : String :=
  String.mk (toHexAux (n + 1) n [])

/-- Character class of the output of `hexStr`: an ASCII decimal digit or a
lowercase letter between a and f. -/
def isLowerHexDigit (c : Char) : Prop :=
  (48 ≤ c.toNat ∧ c.toNat ≤ 57) ∨ (97 ≤ c.toNat ∧ c.toNat ≤ 102)

instance (c : Char) : Decidable (isLowerHexDigit c) := by
  unfold isLowerHexDigit; infer_instance

/-- Models Rust `s.parse::<u32>()`: an optional leading plus sign, then one
or more ASCII decimal digits, value below 2^32; anything else is `Err`. -/
def rustParseU32 (s : String) : Option Nat :=
  let digits := match s.data with
    | '+' :: rest => rest
    | cs => cs
  if digits = [] then none
  else if digits.all (fun c => c.isDigit) then
    let v := digits.foldl (fun a c => a * 10 + (c.toNat - 48)) 0
    if v < 2 ^ 32 then some v else none
  else none

/-- Models `demangle_cpp` (lib.rs lines 361-368).  The external
`cpp_demangle::Symbol` engine is the oracle `dem`: `some out` models a
successful demangle to `out`, `none` models the `Err` case.  On failure the
original string is returned unchanged. -/
def demangle_cpp (dem : String → Option String) (typename : String) : String :=
  match dem typename with
  | some demangled_out => demangled_out
  | none => typename

/-- Models `web3::contract::Contract`: for this glue only the deployed
address is observable. -/
structure Contract where
  address : Nat
deriving DecidableEq, Repr

/-- Models the `NftPtrLib<T>` struct (lib.rs lines 13-22).  The transport
handle carries no observable state and is omitted; `HashMap<u64, Contract>`
is modelled as a function to `Option Contract`. -/
structure NftPtrLib where
  account : Nat
  token_contract : Option Contract
  instance_to_contract : Nat → Option Contract
  num_confirmations : Nat
  network_id : Nat
  use_hardcoded_gas : Bool
  account_private_key : Option Nat

/-- Models `NftPtrLib::new` (lib.rs lines 25-49).  The environment-variable
reads for the confirmation count, gas toggle and keystore are resolved by
the caller and passed in.  The account starts at `Address::zero()`, the
token contract handle starts unset and the registry starts empty. -/
def NftPtrLib.new (num_confirmations : Nat) (use_hardcoded_gas : Bool)
    (account_private_key : Option Nat) : NftPtrLib :=
  { account := 0
    token_contract := none
    instance_to_contract := fun _ => none
    num_confirmations
    network_id := 0
    use_hardcoded_gas
    account_private_key }

/-- Models `mem_address_to_owner_contract_address` (lib.rs lines 140-145):
the registered contract address when the key is present, otherwise the
top-level account. -/
def mem_address_to_owner_contract_address (st : NftPtrLib) (a : Nat) : Nat :=
  match st.instance_to_contract a with
  | some c => c.address
  | none => st.account

/-- Models `ptr_destroy` (lib.rs lines 290-294): removes the registry entry
only; no on-chain action is taken (the function performs no node call, so
it takes no oracle and always returns a state). -/
def ptr_destroy (st : NftPtrLib) (owner_address : Nat) : NftPtrLib :=
  { st with instance_to_contract :=
      fun k => if k = owner_address then none else st.instance_to_contract k }

/-- Models one symbol handed to the `backtrace::resolve` callback: an
optional symbol name (already through `as_str`), an optional debug-info
file path and an optional line number. -/
structure BtSymbol where
  name : Option String
  filename : Option String
  lineno : Option Nat
deriving DecidableEq, Repr

/-- Splits a character list at slashes; accumulator holds the current
component reversed. -/
def splitOnSlashAux : List Char → List Char → List (List Char)
  | [], acc => [acc.reverse]
  | c :: rest, acc =>
    if c = '/' then acc.reverse :: splitOnSlashAux rest []
    else splitOnSlashAux rest (c :: acc)

/-- Models Rust `Path::file_name` followed by `to_string_lossy`: the last
normal component of the path; `none` when the path has no final normal
component (empty, root, or ending in a parent-directory component). -/
def fileNameOf (p : String) : Option String :=
  let comps := (splitOnSlashAux p.data []).filter
    (fun c => !(c == []) && !(c == ['.']))
  match comps.getLast? with
  | none => none
  | some c => if c = ['.', '.'] then none else some (String.mk c)

/-- Models the callback loop of `string_for_pc_addr` (lib.rs lines
333-354): the symbol list for the address is traversed once, symbols
without a name are skipped, and the first named symbol sets `once` and
`outstr`.  Result `none` models a panic inside the callback (the
`file_name().unwrap()` on a path with no final component). -/
def runSymbols (dem : String → Option String) :
    List BtSymbol → Bool → Option String → Option (Bool × Option String)
  | [], once, outstr => some (once, outstr)
  | s :: rest, once, outstr =>
    if once then runSymbols dem rest once outstr
    else
      match s.name, s.filename, s.lineno with
      | none, _, _ => runSymbols dem rest once outstr
      | some nm, some f, some ln =>
        match fileNameOf f with
        | none => none
        | some fn =>
          runSymbols dem rest true
            (some (demangle_cpp dem nm ++ " (" ++ fn ++ ":" ++ toString ln ++ ")"))
      | some nm, _, _ => runSymbols dem rest true (some (demangle_cpp dem nm))

/-- Models `string_for_pc_addr` (lib.rs lines 330-359).  The external
`backtrace::resolve` is the oracle `bt`, giving the symbols reported for a
program counter.  When no symbol carried a name, the address itself is
formatted as lowercase hexadecimal; otherwise the string built by the
first named symbol is returned. -/
def string_for_pc_addr (dem : String → Option String) (bt : Nat → List BtSymbol)
    (pc_addr : Nat) : Option String :=
  match runSymbols dem (bt pc_addr) false none with
  | none => none
  | some (false, _) => some (hexStr pc_addr)
  | some (true, outstr) => outstr

/-- Models the digit table of the percent encoder: uppercase hexadecimal,
as produced by the `percent_encoding` crate. -/
def upperHexDigitChar (n : Nat) : Char :=
  if n = 0 then '0' else if n = 1 then '1' else if n = 2 then '2'
  else if n = 3 then '3' else if n = 4 then '4' else if n = 5 then '5'
  else if n = 6 then '6' else if n = 7 then '7' else if n = 8 then '8'
  else if n = 9 then '9' else if n = 10 then 'A' else if n = 11 then 'B'
  else if n = 12 then 'C' else if n = 13 then 'D' else if n = 14 then 'E'
  else 'F'

/-- Models UTF-8 encoding of one scalar value, byte values as `Nat`. -/
def utf8BytesOfChar (n : Nat) : List Nat :=
  if n < 128 then [n]
  else if n < 2048 then [192 + n / 64, 128 + n % 64]
  else if n < 65536 then [224 + n / 4096, 128 + n / 64 % 64, 128 + n % 64]
  else [240 + n / 262144, 128 + n / 4096 % 64, 128 + n / 64 % 64, 128 + n % 64]

/-- Models the UTF-8 byte sequence of a string. -/
def utf8Bytes (s : String) : List Nat :=
  (s.data.map (fun c => utf8BytesOfChar c.toNat)).flatten

/-- Models the `percent_encoding` crate on one byte with the
`NON_ALPHANUMERIC` set: ASCII alphanumeric bytes pass through, every other
byte becomes a percent sign and two uppercase hexadecimal digits. -/
def percentEncodeByte (b : Nat) : String :=
  if (48 ≤ b ∧ b ≤ 57) ∨ (65 ≤ b ∧ b ≤ 90) ∨ (97 ≤ b ∧ b ≤ 122)
  then String.mk [Char.ofNat b]
  else String.mk ['%', upperHexDigitChar (b / 16), upperHexDigitChar (b % 16)]

/-- Models `utf8_percent_encode(s, NON_ALPHANUMERIC).to_string()` as used
at lib.rs lines 159-161. -/
def percentEncodeNonAlphanumeric (s : String) : String :=
  String.join ((utf8Bytes s).map percentEncodeByte)

/-- Models the argument record of the `mintOrMove` invocation built by
`move_token` (lib.rs lines 178-185): the method name and the exact
argument tuple submitted to the token contract. -/
structure MintCall where
  method : String
  owner_contract : Nat
  previous_owner_contract : Nat
  value : Nat
  token_uri_encoded : String
  caller_pc_backtrace_str : String
deriving DecidableEq, Repr

/-- Models `move_token` (lib.rs lines 147-221).  Oracles: `dem` and `bt`
for symbolication, `txOk` for the node accepting the transaction.  The
code first symbolizes the caller program counter, formats the backtrace
string and token URI, resolves both owner identifiers through the
registry, then unwraps the token contract handle (panic when unset,
modelled as `none`) and submits `mintOrMove`.  No field of the state is
mutated, so only the submitted call is returned. -/
def move_token (st : NftPtrLib) (dem : String → Option String)
    (bt : Nat → List BtSymbol) (txOk : Bool)
    (owner_address previous_owner_address value caller_pc : Nat)
    (object_type : String) : Option MintCall :=
  match string_for_pc_addr dem bt caller_pc with
  | none => none
  | some caller_pc_lineinfo =>
    let caller_pc_backtrace_str := hexStr owner_address ++ " " ++ caller_pc_lineinfo
    let object_type_demangled := demangle_cpp dem object_type
    let token_uri := hexStr value ++ " " ++ object_type_demangled
    let token_uri_encoded := percentEncodeNonAlphanumeric token_uri
    let owner_contract := mem_address_to_owner_contract_address st owner_address
    let previous_owner_contract :=
      mem_address_to_owner_contract_address st previous_owner_address
    match st.token_contract with
    | none => none
    | some _ =>
      if txOk then
        some { method := "mintOrMove"
               owner_contract
               previous_owner_contract
               value
               token_uri_encoded
               caller_pc_backtrace_str }
      else none

/-- Models `ptr_initialize` (lib.rs lines 222-288).  The descriptive
constructor name is built from the identifier, the demangled type name and
the symbolized allocation site; the deployment of the `NftPtrOwner`
contract is the oracle `deployResult` (`none` models deployment failure,
which panics at the `unwrap` on line 275).  On success, the deployed
contract is inserted into the registry under the identifier, silently
replacing any previous entry.  Returns the new state and the constructor
name argument. -/
def ptr_initialize (st : NftPtrLib) (dem : String → Option String)
    (bt : Nat → List BtSymbol) (deployResult : Option Contract)
    (owner_address caller_pc : Nat) (ptr_object_type : String) :
    Option (NftPtrLib × String) :=
  match string_for_pc_addr dem bt caller_pc with
  | none => none
  | some lineinfo =>
    let name := hexStr owner_address ++ " " ++ demangle_cpp dem ptr_object_type
        ++ " " ++ lineinfo
    match deployResult with
    | none => none
    | some contract =>
      some ({ st with instance_to_contract :=
                fun k => if k = owner_address then some contract
                         else st.instance_to_contract k },
            name)

/-- Models `check_not_prod` (lib.rs lines 75-82).  The oracle `version` is
the string answered by `net().version()`.  A literal `"1"` panics before
anything else; any other answer is parsed as a `u32` with `unwrap` (a
parse failure also panics); on success the network id is stored. -/
def check_not_prod (st : NftPtrLib) (version : String) : Option NftPtrLib :=
  if version = "1" then none
  else
    match rustParseU32 version with
    | none => none
    | some nid => some { st with network_id := nid }

/-- Models `deploy_token_contract` (lib.rs lines 83-138).  The whole node
interaction (gas options, constructor arguments built from the binary name
and clock, signing path) is the oracle `tokenDeploy`: `some c` models a
deployment confirmed at contract `c`, `none` models any failure, which
panics at the `unwrap` on line 136.  On success the token contract handle
is set. -/
def deploy_token_contract (st : NftPtrLib) (tokenDeploy : Option Contract) :
    Option NftPtrLib :=
  match tokenDeploy with
  | none => none
  | some c => some { st with token_contract := some c }

/-- Result of `initialize`: either an abort (panic) that happens strictly
before the token-contract deployment is attempted, or a deployment
failure, or success with the final state. -/
inductive InitResult where
  | abortedBeforeDeploy
  | deployFailed
  | ok (st : NftPtrLib)

/-- Models `initialize` (lib.rs lines 50-74).  Order of effects as in the
source: `check_not_prod` first; then the account is resolved, from the
first entry of the node account list when no private key is configured
(`unwrap()[0]` panics when the list is empty) or from the key otherwise
(`keyAddress` models address derivation from a secret key); then
`deploy_token_contract` runs.  Every panic up to and including the account
step happens before any deployment. -/
def initializeLib (st : NftPtrLib) (version : String) (eth_accounts : List Nat)
    (keyAddress : Nat → Nat) (tokenDeploy : Option Contract) : InitResult :=
  match check_not_prod st version with
  | none => .abortedBeforeDeploy
  | some st1 =>
    match (match st1.account_private_key with
           | none => eth_accounts.head?
           | some k => some (keyAddress k)) with
    | none => .abortedBeforeDeploy
    | some a =>
      match deploy_token_contract { st1 with account := a } tokenDeploy with
      | none => .deployFailed
      | some st3 => .ok st3

/-- Models `is_goerli` (lib.rs lines 295-297). -/
def is_goerli (st : NftPtrLib) : Bool :=
  st.network_id == 5


/-- Sample demangler oracle used by concrete witnesses: demangles the
mangled type name of the crate test `demangle_cpp_example` (lib.rs lines
377-380) and fails on everything else. -/
def sampleDem : String → Option String :=
  fun s => if s = "P3Cow" then some "Cow*" else none

/-- Sample backtrace oracle with no resolvable symbol anywhere. -/
def sampleBt : Nat → List BtSymbol := fun _ => []

/-- Sample freshly constructed library state. -/
def cfgEmpty : NftPtrLib := NftPtrLib.new 0 true none

/-- Sample initialized state: account and token contract set, registry
empty. -/
def cfgReady : NftPtrLib :=
  { NftPtrLib.new 0 true none with account := 5, token_contract := some ⟨10⟩ }

/-- Sample state with one registry entry, at key 8, contract address 77. -/
def sampleRegistered : NftPtrLib :=
  { cfgReady with instance_to_contract :=
      fun k => if k = 8 then some ⟨77⟩ else cfgReady.instance_to_contract k }

theorem hexDigitChar_lower {m : Nat} (h : m < 16) :
    isLowerHexDigit (hexDigitChar m) := by
  interval_cases m <;> decide

theorem toHexAux_lower (fuel : Nat) : ∀ (n : Nat) (acc : List Char),
    (∀ c ∈ acc, isLowerHexDigit c) →
    ∀ c ∈ toHexAux fuel n acc, isLowerHexDigit c := by
  induction fuel with
  | zero => intro n acc h c hc; exact h c hc
  | succ fuel ih =>
    intro n acc h c hc
    simp only [toHexAux] at hc
    have hacc : ∀ x ∈ hexDigitChar (n % 16) :: acc, isLowerHexDigit x := by
      intro x hx
      rcases List.mem_cons.mp hx with h1 | h2
      · exact h1 ▸ hexDigitChar_lower (Nat.mod_lt _ (by decide))
      · exact h x h2
    by_cases hd : n / 16 = 0
    · rw [if_pos hd] at hc
      exact hacc c hc
    · rw [if_neg hd] at hc
      exact ih (n / 16) _ hacc c hc

theorem hexStr_lower (n : Nat) : ∀ c ∈ (hexStr n).data, isLowerHexDigit c := by
  intro c hc
  exact toHexAux_lower (n + 1) n [] (by intro x hx; simp at hx) c hc

/-- C2: a resolve of an instance identifier that has no registry entry
returns the top-level account address. -/
theorem resolve_missing_returns_account (st : NftPtrLib) (a : Nat)
    (h : st.instance_to_contract a = none) :
    mem_address_to_owner_contract_address st a = st.account := by
  unfold mem_address_to_owner_contract_address
  rw [h]

theorem resolve_missing_returns_account_witness :
    cfgEmpty.instance_to_contract 5 = none
    ∧ mem_address_to_owner_contract_address cfgEmpty 5 = cfgEmpty.account :=
  ⟨rfl, resolve_missing_returns_account cfgEmpty 5 rfl⟩

/-- C4: ptr_destroy removes exactly the one registry entry and changes no
other field of the state (it performs no node call by its type); a resolve
of the destroyed identifier afterwards returns the account address. -/
theorem ptr_destroy_frame_and_resolve (st : NftPtrLib) (o : Nat) :
    (ptr_destroy st o).instance_to_contract o = none
    ∧ (∀ k, k ≠ o →
        (ptr_destroy st o).instance_to_contract k = st.instance_to_contract k)
    ∧ (ptr_destroy st o).account = st.account
    ∧ (ptr_destroy st o).token_contract = st.token_contract
    ∧ (ptr_destroy st o).num_confirmations = st.num_confirmations
    ∧ (ptr_destroy st o).network_id = st.network_id
    ∧ (ptr_destroy st o).use_hardcoded_gas = st.use_hardcoded_gas
    ∧ (ptr_destroy st o).account_private_key = st.account_private_key
    ∧ mem_address_to_owner_contract_address (ptr_destroy st o) o = st.account := by
  refine ⟨?_, ?_, rfl, rfl, rfl, rfl, rfl, rfl, ?_⟩
  · simp [ptr_destroy]
  · intro k hk
    simp [ptr_destroy, hk]
  · simp [ptr_destroy, mem_address_to_owner_contract_address]

theorem ptr_destroy_frame_and_resolve_witness :
    (ptr_destroy sampleRegistered 8).instance_to_contract 8 = none
    ∧ (ptr_destroy sampleRegistered 8).instance_to_contract 3
        = sampleRegistered.instance_to_contract 3
    ∧ (ptr_destroy sampleRegistered 8).token_contract
        = sampleRegistered.token_contract
    ∧ mem_address_to_owner_contract_address (ptr_destroy sampleRegistered 8) 8
        = sampleRegistered.account :=
  ⟨(ptr_destroy_frame_and_resolve sampleRegistered 8).1,
   (ptr_destroy_frame_and_resolve sampleRegistered 8).2.1 3 (by decide),
   (ptr_destroy_frame_and_resolve sampleRegistered 8).2.2.2.1,
   (ptr_destroy_frame_and_resolve sampleRegistered 8).2.2.2.2.2.2.2.2⟩

/-- C10: ptr_destroy of an identifier absent from the registry returns the
state unchanged (no error: the function is total), and ptr_destroy is
idempotent. -/
theorem ptr_destroy_absent_noop_and_idempotent (st : NftPtrLib) (o : Nat) :
    (st.instance_to_contract o = none → ptr_destroy st o = st)
    ∧ ptr_destroy (ptr_destroy st o) o = ptr_destroy st o := by
  constructor
  · intro h
    cases st with
    | mk a tc m nc ni hg pk =>
      simp only [ptr_destroy]
      simp only [NftPtrLib.mk.injEq, true_and, and_true]
      funext k
      by_cases hk : k = o
      · subst hk
        simp_all
      · simp [hk]
  · cases st with
    | mk a tc m nc ni hg pk =>
      simp only [ptr_destroy]
      simp only [NftPtrLib.mk.injEq, true_and, and_true]
      funext k
      by_cases hk : k = o <;> simp [hk]

theorem ptr_destroy_absent_noop_and_idempotent_witness :
    cfgReady.instance_to_contract 5 = none
    ∧ ptr_destroy cfgReady 5 = cfgReady
    ∧ ptr_destroy (ptr_destroy cfgReady 5) 5 = ptr_destroy cfgReady 5 :=
  ⟨rfl, (ptr_destroy_absent_noop_and_idempotent cfgReady 5).1 rfl,
   (ptr_destroy_absent_noop_and_idempotent cfgReady 5).2⟩

/-- C6: demangling returns the demangler output on success and the input
string unchanged on failure; no error is surfaced in either case (the
function is total).  The external demangler is the oracle `dem`. -/
theorem demangle_cpp_fallback_spec (dem : String → Option String)
    (s t : String) :
    (dem s = some t → demangle_cpp dem s = t)
    ∧ (dem s = none → demangle_cpp dem s = s) := by
  constructor <;> intro h <;> simp [demangle_cpp, h]

theorem demangle_cpp_fallback_spec_witness :
    sampleDem "P3Cow" = some "Cow*"
    ∧ demangle_cpp sampleDem "P3Cow" = "Cow*"
    ∧ sampleDem "hello" = none
    ∧ demangle_cpp sampleDem "hello" = "hello" :=
  ⟨by decide, (demangle_cpp_fallback_spec sampleDem "P3Cow" "Cow*").1 (by decide),
   by decide, (demangle_cpp_fallback_spec sampleDem "hello" "hello").2 (by decide)⟩

theorem runSymbols_true (dem : String → Option String) (l : List BtSymbol)
    (out : Option String) : runSymbols dem l true out = some (true, out) := by
  induction l with
  | nil => rfl
  | cons s rest ih => simp [runSymbols, ih]

theorem runSymbols_nameless (dem : String → Option String)
    (pre l : List BtSymbol) (h : ∀ s ∈ pre, s.name = none) :
    runSymbols dem (pre ++ l) false none = runSymbols dem l false none := by
  induction pre with
  | nil => rfl
  | cons s rest ih =>
    have hs : s.name = none := h s (by simp)
    have hrest : ∀ t ∈ rest, t.name = none := fun t ht => h t (by simp [ht])
    obtain ⟨n?, f?, l?⟩ := s
    simp only at hs
    subst hs
    simp only [List.cons_append, runSymbols, if_neg Bool.false_ne_true]
    exact ih hrest

/-- C7: source-location resolution.  When no symbol reported for the
program counter carries a name, the result is the address formatted as
lowercase hexadecimal; when the first named symbol carries both a file
name and a line number, the result is the demangled symbol, a space, and
the file name and line in parentheses separated by a colon; when the first
named symbol lacks file or line, the result is the demangled symbol alone.
Symbols after the first named one are ignored (the conclusion does not
depend on `rest`). -/
theorem string_for_pc_addr_spec (dem : String → Option String)
    (bt : Nat → List BtSymbol) (pc : Nat) (pre rest : List BtSymbol)
    (sym : BtSymbol) (nm f fn : String) (ln : Nat) :
    (∀ c ∈ (hexStr pc).data, isLowerHexDigit c)
    ∧ ((∀ s ∈ bt pc, s.name = none) →
        string_for_pc_addr dem bt pc = some (hexStr pc))
    ∧ (bt pc = pre ++ sym :: rest → (∀ s ∈ pre, s.name = none) →
        sym.name = some nm → sym.filename = some f → sym.lineno = some ln →
        fileNameOf f = some fn →
        string_for_pc_addr dem bt pc
          = some (demangle_cpp dem nm ++ " (" ++ fn ++ ":" ++ toString ln ++ ")"))
    ∧ (bt pc = pre ++ sym :: rest → (∀ s ∈ pre, s.name = none) →
        sym.name = some nm → (sym.filename = none ∨ sym.lineno = none) →
        string_for_pc_addr dem bt pc = some (demangle_cpp dem nm)) := by
  refine ⟨hexStr_lower pc, ?_, ?_, ?_⟩
  · intro h
    unfold string_for_pc_addr
    have h0 := runSymbols_nameless dem (bt pc) [] h
    rw [List.append_nil] at h0
    rw [h0]
    rfl
  · intro hbt hpre hnm hf hl hfn
    unfold string_for_pc_addr
    rw [hbt, runSymbols_nameless dem pre _ hpre]
    obtain ⟨n?, f?, l?⟩ := sym
    simp only at hnm hf hl
    subst hnm; subst hf; subst hl
    simp only [runSymbols, if_neg Bool.false_ne_true, hfn, runSymbols_true]
  · intro hbt hpre hnm hfl
    unfold string_for_pc_addr
    rw [hbt, runSymbols_nameless dem pre _ hpre]
    obtain ⟨n?, f?, l?⟩ := sym
    simp only at hnm
    subst hnm
    rcases hfl with hf | hl
    · simp only at hf
      subst hf
      simp only [runSymbols, if_neg Bool.false_ne_true, runSymbols_true]
    · simp only at hl
      subst hl
      cases f? with
      | none => simp only [runSymbols, if_neg Bool.false_ne_true, runSymbols_true]
      | some f0 => simp only [runSymbols, if_neg Bool.false_ne_true, runSymbols_true]

/-- Sample backtrace oracle for the witness: one nameless symbol, then a
named symbol with debug info, then a trailing symbol that must be
ignored. -/
def sampleBtDebug : Nat → List BtSymbol := fun _ =>
  [{ name := none, filename := some "zz.cc", lineno := some 1 },
   { name := some "P3Cow", filename := some "dir/cow.cc", lineno := some 12 },
   { name := some "other", filename := some "o.cc", lineno := some 9 }]

/-- Sample backtrace oracle for the witness: first named symbol has no
debug info. -/
def sampleBtBare : Nat → List BtSymbol := fun _ =>
  [{ name := some "P3Cow", filename := none, lineno := some 12 }]

theorem string_for_pc_addr_spec_witness :
    string_for_pc_addr sampleDem sampleBt 255 = some "ff"
    ∧ (∀ c ∈ (hexStr 255).data, isLowerHexDigit c)
    ∧ string_for_pc_addr sampleDem sampleBtDebug 0 = some "Cow* (cow.cc:12)"
    ∧ string_for_pc_addr sampleDem sampleBtBare 0 = some "Cow*" :=
  ⟨(string_for_pc_addr_spec sampleDem sampleBt 255 [] []
      { name := none, filename := none, lineno := none } "" "" "" 0).2.1
      (by intro s hs; simp [sampleBt] at hs),
   (string_for_pc_addr_spec sampleDem sampleBt 255 [] []
      { name := none, filename := none, lineno := none } "" "" "" 0).1,
   (string_for_pc_addr_spec sampleDem sampleBtDebug 0
      [{ name := none, filename := some "zz.cc", lineno := some 1 }]
      [{ name := some "other", filename := some "o.cc", lineno := some 9 }]
      { name := some "P3Cow", filename := some "dir/cow.cc", lineno := some 12 }
      "P3Cow" "dir/cow.cc" "cow.cc" 12).2.2.1
      rfl (by intro s hs; simp [List.mem_singleton] at hs; simp [hs])
      rfl rfl rfl (by decide),
   (string_for_pc_addr_spec sampleDem sampleBtBare 0 [] []
      { name := some "P3Cow", filename := none, lineno := some 12 }
      "P3Cow" "" "" 0).2.2.2
      rfl (by intro s hs; simp at hs)
      rfl (Or.inl rfl)⟩

theorem ptr_initialize_some (st : NftPtrLib) (dem : String → Option String)
    (bt : Nat → List BtSymbol) (c : Contract) (o pc : Nat) (ty li : String)
    (h : string_for_pc_addr dem bt pc = some li) :
    ptr_initialize st dem bt (some c) o pc ty
      = some ({ st with instance_to_contract :=
                  fun k => if k = o then some c else st.instance_to_contract k },
              hexStr o ++ " " ++ demangle_cpp dem ty ++ " " ++ li) := by
  unfold ptr_initialize
  rw [h]

/-- C3: after a successful register of identifier `o`, resolving `o`
returns the address of the contract the register call deployed; the
account is untouched, so whenever the fresh contract address differs from
the account the resolve result is not the default account address. -/
theorem ptr_initialize_then_resolve (st : NftPtrLib)
    (dem : String → Option String) (bt : Nat → List BtSymbol) (c : Contract)
    (o pc : Nat) (ty nm : String) (st1 : NftPtrLib)
    (h : ptr_initialize st dem bt (some c) o pc ty = some (st1, nm)) :
    mem_address_to_owner_contract_address st1 o = c.address
    ∧ st1.account = st.account
    ∧ (c.address ≠ st.account →
        mem_address_to_owner_contract_address st1 o ≠ st1.account) := by
  unfold ptr_initialize at h
  cases hli : string_for_pc_addr dem bt pc with
  | none =>
    rw [hli] at h
    exact Option.noConfusion h
  | some li =>
    rw [hli] at h
    simp only [Option.some.injEq, Prod.mk.injEq] at h
    obtain ⟨hst, -⟩ := h
    subst hst
    refine ⟨?_, rfl, ?_⟩
    · simp [mem_address_to_owner_contract_address]
    · intro hne
      simpa [mem_address_to_owner_contract_address] using hne

theorem ptr_initialize_then_resolve_witness :
    ptr_initialize cfgReady sampleDem sampleBt (some ⟨77⟩) 8 0 "P3Cow"
      = some (sampleRegistered, "8 Cow* 0")
    ∧ mem_address_to_owner_contract_address sampleRegistered 8 = 77
    ∧ sampleRegistered.account = cfgReady.account
    ∧ mem_address_to_owner_contract_address sampleRegistered 8
        ≠ sampleRegistered.account :=
  ⟨rfl,
   (ptr_initialize_then_resolve cfgReady sampleDem sampleBt ⟨77⟩ 8 0 "P3Cow"
      "8 Cow* 0" sampleRegistered rfl).1,
   (ptr_initialize_then_resolve cfgReady sampleDem sampleBt ⟨77⟩ 8 0 "P3Cow"
      "8 Cow* 0" sampleRegistered rfl).2.1,
   (ptr_initialize_then_resolve cfgReady sampleDem sampleBt ⟨77⟩ 8 0 "P3Cow"
      "8 Cow* 0" sampleRegistered rfl).2.2 (by decide)⟩

/-- C5: registering an identifier that already has an entry raises no
error (the second call succeeds whenever its own deployment and
symbolication succeed), and silently replaces the entry: afterwards the
registry holds exactly the second contract at that key, resolve returns
the second address, and no other key changes. -/
theorem ptr_initialize_overwrite_spec (st : NftPtrLib)
    (dem1 dem2 : String → Option String) (bt1 bt2 : Nat → List BtSymbol)
    (c1 c2 : Contract) (o pc1 pc2 : Nat) (ty1 ty2 n1 : String)
    (st1 : NftPtrLib)
    (h1 : ptr_initialize st dem1 bt1 (some c1) o pc1 ty1 = some (st1, n1))
    (hli : (string_for_pc_addr dem2 bt2 pc2).isSome) :
    st1.instance_to_contract o = some c1
    ∧ ∃ st2 n2,
        ptr_initialize st1 dem2 bt2 (some c2) o pc2 ty2 = some (st2, n2)
        ∧ st2.instance_to_contract o = some c2
        ∧ mem_address_to_owner_contract_address st2 o = c2.address
        ∧ (∀ k, k ≠ o →
            st2.instance_to_contract k = st1.instance_to_contract k) := by
  unfold ptr_initialize at h1
  cases hli1 : string_for_pc_addr dem1 bt1 pc1 with
  | none =>
    rw [hli1] at h1
    exact Option.noConfusion h1
  | some li1 =>
    rw [hli1] at h1
    simp only [Option.some.injEq, Prod.mk.injEq] at h1
    obtain ⟨hst, -⟩ := h1
    subst hst
    constructor
    · simp
    · cases hli2 : string_for_pc_addr dem2 bt2 pc2 with
      | none =>
        rw [hli2] at hli
        simp at hli
      | some li2 =>
        refine ⟨_, _, ptr_initialize_some _ dem2 bt2 c2 o pc2 ty2 li2 hli2,
                ?_, ?_, ?_⟩
        · simp
        · simp [mem_address_to_owner_contract_address]
        · intro k hk
          simp [hk]

theorem ptr_initialize_overwrite_spec_witness :
    sampleRegistered.instance_to_contract 8 = some ⟨77⟩
    ∧ ∃ st2 n2,
        ptr_initialize sampleRegistered sampleDem sampleBt (some ⟨88⟩) 8 0 "T"
          = some (st2, n2)
        ∧ st2.instance_to_contract 8 = some ⟨88⟩
        ∧ mem_address_to_owner_contract_address st2 8 = 88
        ∧ (∀ k, k ≠ 8 →
            st2.instance_to_contract k = sampleRegistered.instance_to_contract k) :=
  ptr_initialize_overwrite_spec cfgReady sampleDem sampleDem sampleBt sampleBt
    ⟨77⟩ ⟨88⟩ 8 0 0 "P3Cow" "T" "8 Cow* 0" sampleRegistered rfl rfl

/-- C8: a transfer with a set token contract and a resolvable backtrace
submits the method mintOrMove with exactly the tuple of: the resolved
new-owner address, the resolved previous-owner address, the value, the
percent-encoded token URI built from the hexadecimal value and the
demangled type name, and the backtrace string built from the hexadecimal
new-owner identifier and the symbolized program counter. -/
theorem move_token_mintOrMove_args (st : NftPtrLib)
    (dem : String → Option String) (bt : Nat → List BtSymbol)
    (o p v pc : Nat) (ty : String) (tc : Contract) (li : String)
    (htc : st.token_contract = some tc)
    (hli : string_for_pc_addr dem bt pc = some li) :
    move_token st dem bt true o p v pc ty
      = some { method := "mintOrMove"
               owner_contract := mem_address_to_owner_contract_address st o
               previous_owner_contract := mem_address_to_owner_contract_address st p
               value := v
               token_uri_encoded :=
                 percentEncodeNonAlphanumeric
                   (hexStr v ++ " " ++ demangle_cpp dem ty)
               caller_pc_backtrace_str := hexStr o ++ " " ++ li } := by
  unfold move_token
  rw [hli, htc]
  rfl

theorem move_token_mintOrMove_args_witness :
    move_token sampleRegistered sampleDem sampleBt true 8 2 300 255 "P3Cow"
      = some { method := "mintOrMove"
               owner_contract := 77
               previous_owner_contract := 5
               value := 300
               token_uri_encoded := "12c%20Cow%2A"
               caller_pc_backtrace_str := "8 ff" } :=
  move_token_mintOrMove_args sampleRegistered sampleDem sampleBt 8 2 300 255
    "P3Cow" ⟨10⟩ "ff" rfl rfl

/-- C9: the token contract handle is unset from construction until
initialization succeeds, and a transfer requires it.  Conjuncts: a fresh
state has no token contract; a transfer on a state without a token
contract panics (returns none); a state produced by a successful
initialization always has the token contract set; and on such a state the
transfer never fails at that access (it succeeds whenever its own
symbolication and transaction succeed). -/
theorem move_token_requires_token_contract (nc : Nat) (hg : Bool)
    (key : Option Nat) (st : NftPtrLib) (dem : String → Option String)
    (bt : Nat → List BtSymbol) (txOk : Bool) (o p v pc : Nat) (ty : String)
    (version : String) (accts : List Nat) (ka : Nat → Nat)
    (td : Option Contract) (st1 : NftPtrLib) :
    ((NftPtrLib.new nc hg key).token_contract = none)
    ∧ (st.token_contract = none → move_token st dem bt txOk o p v pc ty = none)
    ∧ (initializeLib st version accts ka td = .ok st1 →
        st1.token_contract.isSome)
    ∧ (st.token_contract.isSome → (string_for_pc_addr dem bt pc).isSome →
        txOk = true → (move_token st dem bt txOk o p v pc ty).isSome) := by
  refine ⟨rfl, ?_, ?_, ?_⟩
  · intro h
    unfold move_token
    cases hli : string_for_pc_addr dem bt pc with
    | none => rfl
    | some li => rw [h]
  · intro h
    unfold initializeLib at h
    split at h
    · exact InitResult.noConfusion h
    · split at h
      · exact InitResult.noConfusion h
      · rename_i st1' a heq2
        unfold deploy_token_contract at h
        split at h
        · exact InitResult.noConfusion h
        · rename_i st3 heq3
          injection h with h'
          subst h'
          cases td with
          | none => exact Option.noConfusion heq3
          | some cD =>
            injection heq3 with h2
            rw [← h2]
            rfl
  · intro h1 h2 h3
    subst h3
    unfold move_token
    cases hli : string_for_pc_addr dem bt pc with
    | none =>
      rw [hli] at h2
      simp at h2
    | some li =>
      cases htc : st.token_contract with
      | none =>
        rw [htc] at h1
        simp at h1
      | some tc => rfl

theorem move_token_requires_token_contract_witness :
    (NftPtrLib.new 0 true none).token_contract = none
    ∧ move_token cfgEmpty sampleDem sampleBt true 8 2 300 255 "P3Cow" = none
    ∧ (move_token cfgReady sampleDem sampleBt true 8 2 300 255 "P3Cow").isSome :=
  ⟨(move_token_requires_token_contract 0 true none cfgEmpty sampleDem sampleBt
      true 8 2 300 255 "P3Cow" "5" [7] (fun k => k) (some ⟨10⟩) cfgReady).1,
   (move_token_requires_token_contract 0 true none cfgEmpty sampleDem sampleBt
      true 8 2 300 255 "P3Cow" "5" [7] (fun k => k) (some ⟨10⟩) cfgReady).2.1 rfl,
   (move_token_requires_token_contract 0 true none cfgReady sampleDem sampleBt
      true 8 2 300 255 "P3Cow" "5" [7] (fun k => k) (some ⟨10⟩) cfgReady).2.2.2
      rfl rfl rfl⟩

/-- C1 counterexample: with network identifier "x" (not "1"), an available
node account and a deployment environment that would succeed, the code
still aborts before any deployment, because check_not_prod unwraps the
u32 parse of the identifier.  The claim as stated says every identifier
other than "1" proceeds to deploy the token contract. -/
theorem initializeLib_nonnumeric_id_counterexample :
    "x" ≠ "1"
    ∧ initializeLib (NftPtrLib.new 0 true none) "x" [7] (fun k => k)
        (some ⟨100⟩) = .abortedBeforeDeploy :=
  ⟨by decide, rfl⟩

/-- C1 (amended): initialization with network identifier "1" aborts before
any deployment; with any other identifier that parses as a 32-bit unsigned
integer (and a resolvable signing account), initialization does not abort
before deployment but proceeds to deploy the token contract. -/
theorem initializeLib_prod_guard_spec (st : NftPtrLib) (version : String)
    (accts : List Nat) (ka : Nat → Nat) (td : Option Contract) :
    (version = "1" →
      initializeLib st version accts ka td = .abortedBeforeDeploy)
    ∧ (version ≠ "1" → (rustParseU32 version).isSome →
        (st.account_private_key.isSome ∨ accts ≠ []) →
        initializeLib st version accts ka td ≠ .abortedBeforeDeploy) := by
  constructor
  · intro h
    unfold initializeLib check_not_prod
    rw [if_pos h]
  · intro hne hp hacct
    unfold initializeLib check_not_prod
    rw [if_neg hne]
    cases hps : rustParseU32 version with
    | none =>
      rw [hps] at hp
      simp at hp
    | some nid =>
      dsimp only
      cases hk : st.account_private_key with
      | some k =>
        dsimp only
        cases td with
        | none => exact fun hcon => InitResult.noConfusion hcon
        | some c => exact fun hcon => InitResult.noConfusion hcon
      | none =>
        dsimp only
        rcases hacct with hkey | hlist
        · rw [hk] at hkey
          simp at hkey
        · cases accts with
          | nil => exact absurd rfl hlist
          | cons a as =>
            dsimp only [List.head?]
            cases td with
            | none => exact fun hcon => InitResult.noConfusion hcon
            | some c => exact fun hcon => InitResult.noConfusion hcon

theorem initializeLib_prod_guard_spec_witness :
    initializeLib cfgEmpty "1" [7] (fun k => k) (some ⟨100⟩)
      = .abortedBeforeDeploy
    ∧ initializeLib cfgEmpty "5" [7] (fun k => k) (some ⟨100⟩)
        ≠ .abortedBeforeDeploy :=
  ⟨(initializeLib_prod_guard_spec cfgEmpty "1" [7] (fun k => k)
      (some ⟨100⟩)).1 rfl,
   (initializeLib_prod_guard_spec cfgEmpty "5" [7] (fun k => k)
      (some ⟨100⟩)).2 (by decide) (by decide) (Or.inr (by decide))⟩
